import Mathlib

/-!
Verification of the todo-service core (`src/main.rs`): the in-memory store
handlers (`list_todos`, `create_todo`, `update_todo`, `delete_todo`), the
bounded-seconds path parameter (`models::Seconds`), and the warp route
table with its rejection mapper (`handlers::rejection`).

Machine integers (`u64`, `usize`) are modelled as `Nat`; the store
(`Vec<Todo>` behind the mutex) as `List Todo`; each handler is a pure
state transformer `… → List Todo → Nat × List Todo` returning the HTTP
status code it replies with and the store after the call.
-/

/-- `models::Todo`: `{ id: u64, text: String, completed: bool }`. -/
structure Todo where
  id : Nat
  text : String
  completed : Bool
deriving DecidableEq, Repr

/-- `models::ListOptions`: optional `offset` and `limit` query fields. -/
structure ListOptions where
  offset : Option Nat
  limit : Option Nat
deriving DecidableEq, Repr

/-- `usize::MAX` on the 64-bit target: the default for a missing `limit`. -/
def USIZE_MAX : Nat := 2 ^ 64 - 1

/-- `handlers::list_todos`: clone the store, `skip(offset.unwrap_or(0))`,
`take(limit.unwrap_or(usize::MAX))`; the store itself is only read, so the
second component (the store after the call) is the store unchanged. -/
def list_todos (opts : ListOptions) (db : List Todo) : List Todo × List Todo :=
  ((db.drop (opts.offset.getD 0)).take (opts.limit.getD USIZE_MAX), db)

/-- `handlers::create_todo`: scan for an entry with the same `id`; if found
reply `400 BAD_REQUEST` without mutating, else push and reply `201 CREATED`. -/
def create_todo (create : Todo) (db : List Todo) : Nat × List Todo :=
  if db.any (fun todo => todo.id == create.id) then
    (400, db)
  else
    (201, db ++ [create])

/-- The `iter_mut` loop of `handlers::update_todo`: replace the first entry
whose `id` matches and stop; `none` when no entry matches. -/
def replaceFirst (key : Nat) (update : Todo) : List Todo → Option (List Todo)
  | [] => none
  | todo :: rest =>
    if todo.id == key then
      some (update :: rest)
    else
      (replaceFirst key update rest).map (fun l => todo :: l)

/-- `handlers::update_todo`: overwrite the first entry whose `id` matches and
reply `200 OK`; reply `404 NOT_FOUND` without mutating when none matches. -/
def update_todo (key : Nat) (update : Todo) (db : List Todo) : Nat × List Todo :=
  match replaceFirst key update db with
  | some db2 => (200, db2)
  | none => (404, db)

/-- `handlers::delete_todo`: `retain` every entry whose `id` differs; reply
`204 NO_CONTENT` when the length shrank, else `404 NOT_FOUND`. -/
def delete_todo (key : Nat) (db : List Todo) : Nat × List Todo :=
  if ((db.filter fun todo => todo.id != key).length != db.length) then
    (204, db.filter fun todo => todo.id != key)
  else
    (404, db)

theorem replaceFirst_eq_none (key : Nat) (t : Todo) :
    ∀ db : List Todo, (∀ u ∈ db, u.id ≠ key) → replaceFirst key t db = none := by
  intro db h
  induction db with
  | nil => rfl
  | cons v rest ih =>
    have hv : v.id ≠ key := h v (List.mem_cons_self v rest)
    have hrest : replaceFirst key t rest = none :=
      ih fun u hu => h u (List.mem_cons_of_mem v hu)
    simp [replaceFirst, hv, hrest]

theorem replaceFirst_decomp (key : Nat) (t : Todo) :
    ∀ (pre : List Todo) (u : Todo) (post : List Todo), u.id = key →
      (∀ v ∈ pre, v.id ≠ key) →
      replaceFirst key t (pre ++ u :: post) = some (pre ++ t :: post) := by
  intro pre
  induction pre with
  | nil =>
    intro u post hu _
    simp [replaceFirst, hu]
  | cons v rest ih =>
    intro u post hu hpre
    have hv : v.id ≠ key := hpre v (List.mem_cons_self v rest)
    have := ih u post hu fun w hw => hpre w (List.mem_cons_of_mem v hw)
    simp [replaceFirst, hv, this]

theorem create_todo_mem (db : List Todo) (t : Todo) (h : ∃ u ∈ db, u.id = t.id) :
    create_todo t db = (400, db) := by
  rcases h with ⟨u, hu, hid⟩
  have : db.any (fun todo => todo.id == t.id) = true :=
    List.any_eq_true.mpr ⟨u, hu, by simpa using hid⟩
  simp [create_todo, this]

theorem create_todo_not_mem (db : List Todo) (t : Todo) (h : ∀ u ∈ db, u.id ≠ t.id) :
    create_todo t db = (201, db ++ [t]) := by
  have : db.any (fun todo => todo.id == t.id) = false := by
    simp only [List.any_eq_false]
    intro u hu
    simpa using h u hu
  simp [create_todo, this]

/-- C1: `create_todo` on a store already holding the `id` leaves the store
completely unchanged and replies 400 (Conflict); when no entry has that
`id` it appends the todo at the end and replies 201. -/
theorem create_todo_conflict_or_append (db : List Todo) (t : Todo) :
    ((∃ u ∈ db, u.id = t.id) → create_todo t db = (400, db)) ∧
    ((∀ u ∈ db, u.id ≠ t.id) → create_todo t db = (201, db ++ [t])) :=
  ⟨create_todo_mem db t, create_todo_not_mem db t⟩

theorem create_todo_conflict_or_append_app :
    create_todo ⟨1, "b", true⟩ [⟨1, "a", false⟩] = (400, [⟨1, "a", false⟩]) ∧
    create_todo ⟨2, "b", true⟩ [⟨1, "a", false⟩]
      = (201, [⟨1, "a", false⟩, ⟨2, "b", true⟩]) :=
  ⟨(create_todo_conflict_or_append [⟨1, "a", false⟩] ⟨1, "b", true⟩).1 (by decide),
   (create_todo_conflict_or_append [⟨1, "a", false⟩] ⟨2, "b", true⟩).2 (by decide)⟩

/-- C2: `update_todo` on an absent `id` leaves the store unchanged and
replies 404 (NotFound); on a present `id` the first entry carrying it is
replaced wholesale by the new value (every field, including a possibly
different `id`) and the reply is 200. -/
theorem update_todo_replace_or_not_found (db : List Todo) (key : Nat) (t : Todo) :
    ((∀ u ∈ db, u.id ≠ key) → update_todo key t db = (404, db)) ∧
    (∀ (pre : List Todo) (u : Todo) (post : List Todo),
      db = pre ++ u :: post → u.id = key → (∀ v ∈ pre, v.id ≠ key) →
      update_todo key t db = (200, pre ++ t :: post)) := by
  constructor
  · intro h
    simp [update_todo, replaceFirst_eq_none key t db h]
  · intro pre u post hdb hu hpre
    subst hdb
    simp [update_todo, replaceFirst_decomp key t pre u post hu hpre]

theorem update_todo_replace_or_not_found_app :
    update_todo 7 ⟨7, "n", true⟩ [⟨1, "a", false⟩] = (404, [⟨1, "a", false⟩]) ∧
    update_todo 2 ⟨9, "n", true⟩ [⟨1, "a", false⟩, ⟨2, "b", false⟩, ⟨3, "c", true⟩]
      = (200, [⟨1, "a", false⟩, ⟨9, "n", true⟩, ⟨3, "c", true⟩]) :=
  ⟨(update_todo_replace_or_not_found [⟨1, "a", false⟩] 7 ⟨7, "n", true⟩).1 (by decide),
   (update_todo_replace_or_not_found
      [⟨1, "a", false⟩, ⟨2, "b", false⟩, ⟨3, "c", true⟩] 2 ⟨9, "n", true⟩).2
     [⟨1, "a", false⟩] ⟨2, "b", false⟩ [⟨3, "c", true⟩] rfl (by decide) (by decide)⟩

theorem filter_ne_length_of_nodup (db : List Todo) (key : Nat)
    (hnd : (db.map Todo.id).Nodup) (hmem : ∃ u ∈ db, u.id = key) :
    (db.filter fun u => u.id != key).length + 1 = db.length := by
  induction db with
  | nil =>
    rcases hmem with ⟨u, hu, _⟩
    cases hu
  | cons v rest ih =>
    simp only [List.map_cons, List.nodup_cons] at hnd
    obtain ⟨hvnotin, hndr⟩ := hnd
    by_cases hv : v.id = key
    · have hrest : ∀ u ∈ rest, u.id ≠ key := by
        intro u hu hk
        exact hvnotin (hv ▸ hk ▸ List.mem_map_of_mem Todo.id hu)
      have hfix : rest.filter (fun u => u.id != key) = rest :=
        List.filter_eq_self.mpr (by intro u hu; simpa using hrest u hu)
      simp [List.filter_cons, hv, hfix]
    · rcases hmem with ⟨u, hu, huk⟩
      rcases List.mem_cons.mp hu with h1 | h2
      · exact absurd (h1 ▸ huk) hv
      · have := ih hndr ⟨u, h2, huk⟩
        simp only [List.filter_cons, bne_iff_ne, ne_eq, hv, not_false_eq_true,
          if_true, List.length_cons]
        omega

/-- C3 counterexample: on a store holding two entries with id 1 (reachable,
since `update_todo` re-checks no key uniqueness), `delete_todo 1` succeeds
but the length drops by two, not by exactly one as the claim states. -/
theorem delete_todo_exactly_one_cex :
    (∃ u ∈ [Todo.mk 1 "a" false, Todo.mk 1 "b" true], u.id = 1) ∧
    (delete_todo 1 [Todo.mk 1 "a" false, Todo.mk 1 "b" true]).1 = 204 ∧
    (delete_todo 1 [Todo.mk 1 "a" false, Todo.mk 1 "b" true]).2.length + 1
      ≠ ([Todo.mk 1 "a" false, Todo.mk 1 "b" true] : List Todo).length := by
  decide

/-- C3 (amended): `delete_todo` on an absent `id` leaves the store unchanged
and replies 404; on a store whose ids are pairwise distinct and hold the
`id`, the length drops by exactly one, no entry with that `id` remains, and
the reply is 204. -/
theorem delete_todo_not_found_or_removes_one (db : List Todo) (key : Nat) :
    ((∀ u ∈ db, u.id ≠ key) → delete_todo key db = (404, db)) ∧
    ((db.map Todo.id).Nodup → (∃ u ∈ db, u.id = key) →
      (delete_todo key db).1 = 204 ∧
      (delete_todo key db).2.length + 1 = db.length ∧
      ∀ u ∈ (delete_todo key db).2, u.id ≠ key) := by
  constructor
  · intro h
    have hfix : db.filter (fun u => u.id != key) = db :=
      List.filter_eq_self.mpr (by intro u hu; simpa using h u hu)
    simp [delete_todo, hfix]
  · intro hnd hmem
    have hlen := filter_ne_length_of_nodup db key hnd hmem
    have hne : ((db.filter fun u => u.id != key).length != db.length) = true := by
      simp only [bne_iff_ne, ne_eq]
      omega
    refine ⟨by simp [delete_todo, hne], by simp [delete_todo, hne]; omega, ?_⟩
    intro u hu
    simp only [delete_todo, hne, if_true] at hu
    simpa using (List.mem_filter.mp hu).2

theorem delete_todo_not_found_or_removes_one_app :
    delete_todo 9 [Todo.mk 1 "a" false] = (404, [Todo.mk 1 "a" false]) ∧
    (delete_todo 2 [Todo.mk 1 "a" false, Todo.mk 2 "b" true]).1 = 204 ∧
    (delete_todo 2 [Todo.mk 1 "a" false, Todo.mk 2 "b" true]).2.length + 1 = 2 :=
  ⟨(delete_todo_not_found_or_removes_one [Todo.mk 1 "a" false] 9).1 (by decide),
   ((delete_todo_not_found_or_removes_one
      [Todo.mk 1 "a" false, Todo.mk 2 "b" true] 2).2 (by decide) (by decide)).1,
   ((delete_todo_not_found_or_removes_one
      [Todo.mk 1 "a" false, Todo.mk 2 "b" true] 2).2 (by decide) (by decide)).2.1⟩

/-- C10: one `delete_todo` call removes every entry carrying the `id` (the
result is exactly the filtered store, so the length may drop by more than
one on a store with duplicate ids) and replies 204 whenever at least one
entry carried it. -/
theorem delete_todo_removes_every_match (db : List Todo) (key : Nat) :
    (delete_todo key db).2 = db.filter (fun u => u.id != key) ∧
    ((∃ u ∈ db, u.id = key) → (delete_todo key db).1 = 204) ∧
    (∀ u ∈ (delete_todo key db).2, u.id ≠ key) := by
  have hsnd : (delete_todo key db).2 = db.filter (fun u => u.id != key) := by
    by_cases h : ((db.filter fun u => u.id != key).length != db.length) = true
    · simp [delete_todo, h]
    · simp only [bne_iff_ne, ne_eq, not_not] at h
      have : db.filter (fun u => u.id != key) = db :=
        List.filter_eq_self.mpr (List.filter_length_eq_length.mp h)
      simp [delete_todo, this]
  refine ⟨hsnd, ?_, ?_⟩
  · rintro ⟨u, hu, huk⟩
    have h : ((db.filter fun u => u.id != key).length != db.length) = true := by
      simp only [bne_iff_ne, ne_eq]
      intro heq
      have := List.filter_length_eq_length.mp heq u hu
      simp [huk] at this
    simp [delete_todo, h]
  · intro u hu
    rw [hsnd] at hu
    simpa using (List.mem_filter.mp hu).2

theorem delete_todo_removes_every_match_app :
    (delete_todo 1 [Todo.mk 1 "a" false, Todo.mk 2 "b" false, Todo.mk 1 "c" true]).1
      = 204 ∧
    (delete_todo 1 [Todo.mk 1 "a" false, Todo.mk 2 "b" false, Todo.mk 1 "c" true]).2
      = [Todo.mk 2 "b" false] :=
  ⟨(delete_todo_removes_every_match
      [Todo.mk 1 "a" false, Todo.mk 2 "b" false, Todo.mk 1 "c" true] 1).2.1 (by decide),
   by decide⟩

/-- C4: `list_todos` leaves the store untouched, returns at most `limit`
entries, and its output at index `i` is exactly the store's entry at index
`offset + i` when `i < limit` (so the window `[offset, offset+limit)` is
clipped to the available length, and an offset at or past the length
yields the empty sequence). -/
theorem list_todos_window (opts : ListOptions) (db : List Todo) :
    (list_todos opts db).2 = db ∧
    (list_todos opts db).1.length ≤ opts.limit.getD USIZE_MAX ∧
    (∀ i : Nat, ((list_todos opts db).1)[i]? =
      if i < opts.limit.getD USIZE_MAX then db[opts.offset.getD 0 + i]? else none) ∧
    (db.length ≤ opts.offset.getD 0 → (list_todos opts db).1 = []) := by
  refine ⟨rfl, ?_, ?_, ?_⟩
  · simp [list_todos]
  · intro i
    simp [list_todos, List.getElem?_take, List.getElem?_drop]
  · intro h
    simp [list_todos, List.drop_eq_nil_of_le h]

theorem list_todos_window_app :
    (list_todos ⟨some 1, some 2⟩
        [Todo.mk 1 "a" false, Todo.mk 2 "b" false, Todo.mk 3 "c" false,
         Todo.mk 4 "d" false]).1 = [Todo.mk 2 "b" false, Todo.mk 3 "c" false] ∧
    (list_todos ⟨some 9, none⟩ [Todo.mk 1 "a" false]).1 = [] :=
  ⟨by decide,
   (list_todos_window ⟨some 9, none⟩ [Todo.mk 1 "a" false]).2.2.2 (by decide)⟩

/-- Running a sequence of `create_todo` calls left to right, collecting each
reply status and threading the store. -/
def runCreates : List Todo → List Todo → List Nat × List Todo
  | [], db => ([], db)
  | t :: ts, db =>
    ((create_todo t db).1 :: (runCreates ts (create_todo t db).2).1,
     (runCreates ts (create_todo t db).2).2)

theorem runCreates_fresh (ts : List Todo) :
    ∀ db : List Todo, (ts.map Todo.id).Nodup →
      (∀ t ∈ ts, ∀ u ∈ db, u.id ≠ t.id) →
      runCreates ts db = (List.replicate ts.length 201, db ++ ts) := by
  induction ts with
  | nil =>
    intro db _ _
    simp [runCreates]
  | cons t rest ih =>
    intro db hnd hdisj
    simp only [List.map_cons, List.nodup_cons] at hnd
    obtain ⟨hnotin, hndr⟩ := hnd
    have hcreate : create_todo t db = (201, db ++ [t]) :=
      create_todo_not_mem db t (hdisj t (List.mem_cons_self t rest))
    have hdisj2 : ∀ s ∈ rest, ∀ u ∈ db ++ [t], u.id ≠ s.id := by
      intro s hs u hu
      rcases List.mem_append.mp hu with h1 | h2
      · exact hdisj s (List.mem_cons_of_mem t hs) u h1
      · have : u = t := by simpa using h2
        subst this
        intro he
        exact hnotin (he ▸ List.mem_map_of_mem Todo.id hs)
    have := ih (db ++ [t]) hndr hdisj2
    simp [runCreates, hcreate, this, List.replicate_succ]

/-- C5: from the empty store, a sequence of `create_todo` calls with
pairwise-distinct ids (each shorter than the `usize` range, as any `Vec`
is) all reply 201, and `list_todos` with default offset and limit then
returns exactly the created todos in creation order. -/
theorem creates_then_list_in_order (ts : List Todo)
    (hnd : (ts.map Todo.id).Nodup) (hlen : ts.length ≤ USIZE_MAX) :
    (runCreates ts []).1 = List.replicate ts.length 201 ∧
    (list_todos ⟨none, none⟩ (runCreates ts []).2).1 = ts := by
  have hrun := runCreates_fresh ts [] hnd (by intro t _ u hu; cases hu)
  rw [hrun]
  exact ⟨rfl, by simp [list_todos, List.take_of_length_le hlen]⟩

theorem creates_then_list_in_order_app :
    (runCreates [Todo.mk 1 "a" false, Todo.mk 2 "b" true] []).1 = [201, 201] ∧
    (list_todos ⟨none, none⟩
        (runCreates [Todo.mk 1 "a" false, Todo.mk 2 "b" true] []).2).1
      = [Todo.mk 1 "a" false, Todo.mk 2 "b" true] := by
  have h := creates_then_list_in_order [Todo.mk 1 "a" false, Todo.mk 2 "b" true]
    (by decide) (by decide)
  refine ⟨?_, h.2⟩
  rw [h.1]
  rfl

/-- One completed store mutation: a `create_todo`, `update_todo` or
`delete_todo` call with its arguments. -/
inductive Op where
  | create (t : Todo)
  | update (key : Nat) (t : Todo)
  | delete (key : Nat)
deriving DecidableEq, Repr

/-- The store after one completed operation. -/
def applyOp (db : List Todo) : Op → List Todo
  | .create t => (create_todo t db).2
  | .update key t => (update_todo key t db).2
  | .delete key => (delete_todo key db).2

/-- The store after a sequence of completed operations, from the empty
store the service starts with. -/
def applyOps (ops : List Op) : List Todo :=
  ops.foldl applyOp []

/-- Whether an operation keeps the store's keys: an update whose new todo
carries the same `id` it targets; creates and deletes always do. -/
def opKeyPreserving : Op → Bool
  | .update key t => t.id == key
  | _ => true

theorem replaceFirst_map_id (key : Nat) (t : Todo) (hkey : t.id = key) :
    ∀ db db2 : List Todo, replaceFirst key t db = some db2 →
      db2.map Todo.id = db.map Todo.id := by
  intro db
  induction db with
  | nil =>
    intro db2 h
    simp [replaceFirst] at h
  | cons v rest ih =>
    intro db2 h
    by_cases hv : v.id = key
    · simp only [replaceFirst, hv, beq_self_eq_true, if_true, Option.some_inj] at h
      subst h
      simp [hkey, hv]
    · simp only [replaceFirst, hv, beq_iff_eq, if_false, if_neg hv,
        Option.map_eq_some'] at h
      obtain ⟨l, hl, hdb2⟩ := h
      subst hdb2
      simp [ih l hl]

theorem applyOp_nodup (db : List Todo) (op : Op)
    (hnd : (db.map Todo.id).Nodup) (hop : opKeyPreserving op = true) :
    ((applyOp db op).map Todo.id).Nodup := by
  cases op with
  | create t =>
    by_cases h : ∃ u ∈ db, u.id = t.id
    · simp [applyOp, create_todo_mem db t h, hnd]
    · push_neg at h
      have hfresh : t.id ∉ db.map Todo.id := by
        intro hmem
        obtain ⟨u, hu, he⟩ := List.mem_map.mp hmem
        exact h u hu he
      rw [show applyOp db (Op.create t) = db ++ [t] by
        simp [applyOp, create_todo_not_mem db t h]]
      have hmid : (List.map Todo.id db ++ t.id :: ([] : List Nat)).Nodup := by
        refine List.nodup_middle.mpr ?_
        constructor
        · simp only [List.append_nil]
          intro a ha he
          exact hfresh (he ▸ ha)
        · simpa using hnd
      simpa using hmid
  | update key t =>
    simp only [opKeyPreserving, beq_iff_eq] at hop
    cases hrf : replaceFirst key t db with
    | none => simpa [applyOp, update_todo, hrf] using hnd
    | some db2 =>
      have := replaceFirst_map_id key t hop db db2 hrf
      simpa [applyOp, update_todo, hrf, this] using hnd
  | delete key =>
    have hsub : List.Sublist ((db.filter fun todo => todo.id != key).map Todo.id)
        (db.map Todo.id) :=
      List.Sublist.map Todo.id (List.filter_sublist db)
    cases hb : ((db.filter fun todo => todo.id != key).length != db.length)
    · simpa [applyOp, delete_todo, hb] using hnd
    · simpa [applyOp, delete_todo, hb] using List.Nodup.sublist hsub hnd

theorem foldl_applyOp_nodup (ops : List Op) :
    ∀ db : List Todo, (db.map Todo.id).Nodup →
      (∀ op ∈ ops, opKeyPreserving op = true) →
      ((ops.foldl applyOp db).map Todo.id).Nodup := by
  induction ops with
  | nil =>
    intro db hnd _
    simpa using hnd
  | cons op rest ih =>
    intro db hnd hall
    simp only [List.foldl_cons]
    exact ih (applyOp db op)
      (applyOp_nodup db op hnd (hall op (List.mem_cons_self op rest)))
      fun o ho => hall o (List.mem_cons_of_mem op ho)

/-- C6 counterexample: the sequence create {id 1}, create {id 2},
update 2 {id 1} — three completed operations from the empty store — leaves
a store whose ids are [1, 1]: `update_todo` does not preserve the key, so
the pairwise-distinct-ids invariant fails at a quiescent instant. -/
theorem store_ids_nodup_cex :
    ¬ ((applyOps [Op.create (Todo.mk 1 "a" false), Op.create (Todo.mk 2 "b" false),
        Op.update 2 (Todo.mk 1 "c" false)]).map Todo.id).Nodup := by
  decide

/-- C6 (amended): from the empty store, after any sequence of completed
create/update/delete operations in which every update's replacement todo
keeps the `id` it targets, all `id` values in the store are pairwise
distinct; `create_todo` enforces uniqueness before insertion, and such
updates and all deletes preserve it. -/
theorem store_ids_nodup_of_key_preserving (ops : List Op)
    (h : ∀ op ∈ ops, opKeyPreserving op = true) :
    ((applyOps ops).map Todo.id).Nodup :=
  foldl_applyOp_nodup ops [] (by simp) h

theorem store_ids_nodup_of_key_preserving_app :
    ((applyOps [Op.create (Todo.mk 1 "a" false), Op.create (Todo.mk 2 "b" false),
        Op.update 2 (Todo.mk 2 "c" true), Op.delete 1]).map Todo.id).Nodup :=
  store_ids_nodup_of_key_preserving
    [Op.create (Todo.mk 1 "a" false), Op.create (Todo.mk 2 "b" false),
     Op.update 2 (Todo.mk 2 "c" true), Op.delete 1] (by decide)

/-- The digit loop of `u64::from_str` as `models::Seconds::from_str` calls
it: consume ASCII digits, accumulating in base 10 and failing on any
non-digit or once the value overflows `u64::MAX`. -/
def u64FromStrAux : List Char → Nat → Option Nat
  | [], acc => some acc
  | c :: cs, acc =>
    if c.isDigit then
      if acc * 10 + (c.toNat - 48) < 2 ^ 64 then
        u64FromStrAux cs (acc * 10 + (c.toNat - 48))
      else
        none
    else
      none

/-- `str::parse::<u64>` (`u64::from_str`): an optional leading `+`, then one
or more ASCII digits, rejecting empty input and values past `u64::MAX`. -/
def u64FromStr (s : String) : Option Nat :=
  match s.data with
  | [] => none
  | ['+'] => none
  | '+' :: cs => u64FromStrAux cs 0
  | cs => u64FromStrAux cs 0

/-- `models::Seconds`: the validated delay path parameter. -/
structure Seconds where
  val : Nat
deriving DecidableEq, Repr

/-- `models::Seconds::from_str`: `src.parse::<u64>()`, then fail unless the
parsed number is at most 5. -/
def Seconds.fromStr (src : String) : Except Unit Seconds :=
  match u64FromStr src with
  | some num => if num ≤ 5 then Except.ok ⟨num⟩ else Except.error ()
  | none => Except.error ()

/-- C9: the bounded-seconds parse succeeds with value `n` exactly when the
string parses as an unsigned 64-bit integer `n` with `n ≤ 5`, and fails
(never clamping) exactly when the string does not parse or its value
exceeds 5. -/
theorem seconds_from_str_bounds (s : String) (n : Nat) :
    (Seconds.fromStr s = Except.ok ⟨n⟩ ↔ u64FromStr s = some n ∧ n ≤ 5) ∧
    (Seconds.fromStr s = Except.error () ↔
      u64FromStr s = none ∨ ∃ m, u64FromStr s = some m ∧ 5 < m) := by
  cases h : u64FromStr s with
  | none => simp [Seconds.fromStr, h]
  | some m =>
    by_cases hm : m ≤ 5
    · refine ⟨⟨fun he => ?_, fun hin => ?_⟩, ⟨fun he => ?_, fun hin => ?_⟩⟩
      · simp only [Seconds.fromStr, h, hm, if_true, Except.ok.injEq,
          Seconds.mk.injEq] at he
        exact ⟨by rw [he], he ▸ hm⟩
      · obtain ⟨hs, _⟩ := hin
        injection hs with hs
        subst hs
        simp [Seconds.fromStr, h, hm]
      · simp [Seconds.fromStr, h, hm] at he
      · rcases hin with hnone | ⟨m2, hm2, h5⟩
        · cases hnone
        · injection hm2 with hm2
          subst hm2
          exact absurd h5 (by omega)
    · refine ⟨⟨fun he => ?_, fun hin => ?_⟩, ⟨fun _ => ?_, fun _ => ?_⟩⟩
      · simp [Seconds.fromStr, h, hm] at he
      · obtain ⟨hs, hn5⟩ := hin
        injection hs with hs
        exact absurd hn5 (hs ▸ hm)
      · exact Or.inr ⟨m, rfl, by omega⟩
      · simp [Seconds.fromStr, h, hm]

/-- An HTTP method; `other` stands for any method the route table never
names (PATCH, HEAD, …). -/
inductive Method where
  | GET
  | POST
  | PUT
  | DELETE
  | other (name : String)
deriving DecidableEq, Repr

/-- The rejection kinds warp filters raise on this route table. `notFound`
is the path-mismatch default; the rest are the named rejections of the
method, header, body and query filters. -/
inductive Rej where
  | notFound
  | methodNotAllowed
  | missingHeader
  | invalidHeader
  | lengthRequired
  | payloadTooLarge
  | bodyDeserialize
  | invalidQuery
deriving DecidableEq, Repr

/-- A request as the route table observes it: method, path segments, the
`authorization` header value, whether a `host` header is present and
parses as a socket address, whether a `user-agent` header is present, the
declared `Content-Length`, whether the body deserializes as a `Todo`
resp. an `Employee`, whether the query string decodes as `ListOptions`,
and whether `./README.md` is servable. -/
structure Request where
  method : Method
  path : List String
  authHeader : Option String
  hostValid : Option Bool
  uaPresent : Bool
  contentLength : Option Nat
  todoBodyOk : Bool
  employeeBodyOk : Bool
  queryOk : Bool
  readmeOk : Bool
deriving DecidableEq, Repr

/-- One warp filter as used in `mod filters`. -/
inductive Filt where
  | methodIs (m : Method)
  | pathLit (s : String)
  | pathParamU64
  | pathParamString
  | pathParamSeconds
  | pathEnd
  | authExact (v : String)
  | hostHeader
  | uaHeader
  | bodyTodo
  | bodyEmployee
  | queryOpts
  | fileReadme
deriving DecidableEq, Repr

/-- Run one route's filter chain left to right over the remaining path
segments, as warp does: the first failing filter's rejection is the
route's rejection; an exhausted chain still rejects `notFound` when path
segments remain unconsumed (warp's full-match check). -/
def runFilts : List Filt → Request → List String → Option Rej
  | [], _, segs => if segs.isEmpty then none else some .notFound
  | .methodIs m :: fs, req, segs =>
    if req.method = m then runFilts fs req segs else some .methodNotAllowed
  | .pathLit s :: fs, req, segs =>
    match segs with
    | t :: rest => if t = s then runFilts fs req rest else some .notFound
    | [] => some .notFound
  | .pathParamU64 :: fs, req, segs =>
    match segs with
    | t :: rest =>
      if (u64FromStr t).isSome then runFilts fs req rest else some .notFound
    | [] => some .notFound
  | .pathParamString :: fs, req, segs =>
    match segs with
    | _ :: rest => runFilts fs req rest
    | [] => some .notFound
  | .pathParamSeconds :: fs, req, segs =>
    match segs with
    | t :: rest =>
      match Seconds.fromStr t with
      | .ok _ => runFilts fs req rest
      | .error _ => some .notFound
    | [] => some .notFound
  | .pathEnd :: fs, req, segs =>
    if segs.isEmpty then runFilts fs req segs else some .notFound
  | .authExact v :: fs, req, segs =>
    match req.authHeader with
    | some w => if w = v then runFilts fs req segs else some .invalidHeader
    | none => some .missingHeader
  | .hostHeader :: fs, req, segs =>
    match req.hostValid with
    | some true => runFilts fs req segs
    | some false => some .invalidHeader
    | none => some .missingHeader
  | .uaHeader :: fs, req, segs =>
    if req.uaPresent then runFilts fs req segs else some .missingHeader
  | .bodyTodo :: fs, req, segs =>
    match req.contentLength with
    | none => some .lengthRequired
    | some n =>
      if n ≤ 16 * 1024 then
        if req.todoBodyOk then runFilts fs req segs else some .bodyDeserialize
      else
        some .payloadTooLarge
  | .bodyEmployee :: fs, req, segs =>
    match req.contentLength with
    | none => some .lengthRequired
    | some n =>
      if n ≤ 16 * 1024 then
        if req.employeeBodyOk then runFilts fs req segs else some .bodyDeserialize
      else
        some .payloadTooLarge
  | .queryOpts :: fs, req, segs =>
    if req.queryOk then runFilts fs req segs else some .invalidQuery
  | .fileReadme :: fs, req, segs =>
    if req.readmeOk then runFilts fs req segs else some .notFound

/-- The nine declared routes, in the order `filters::init().or(filters::todos)`
composes them. -/
inductive RouteId where
  | readme
  | hello
  | hi
  | sleep
  | register
  | todosList
  | todosCreate
  | todosUpdate
  | todosDelete
deriving DecidableEq, Repr

/-- Each route's filter chain, in the order `mod filters` writes it (the
`path!` macro appends an end-of-path filter; the delete route checks the
admin header after the path and before the method). -/
def chainOf : RouteId → List Filt
  | .readme => [.methodIs .GET, .pathEnd, .fileReadme]
  | .hello =>
    [.pathLit "hello", .methodIs .GET, .pathParamString, .hostHeader, .uaHeader]
  | .hi => [.pathLit "hi", .methodIs .GET]
  | .sleep => [.pathLit "sleep", .methodIs .GET, .pathParamSeconds]
  | .register => [.pathLit "register", .methodIs .POST, .bodyEmployee]
  | .todosList => [.pathLit "todos", .pathEnd, .methodIs .GET, .queryOpts]
  | .todosCreate => [.pathLit "todos", .pathEnd, .methodIs .POST, .bodyTodo]
  | .todosUpdate =>
    [.pathLit "todos", .pathParamU64, .pathEnd, .methodIs .PUT, .bodyTodo]
  | .todosDelete =>
    [.pathLit "todos", .pathParamU64, .pathEnd, .authExact "Bearer admin",
     .methodIs .DELETE]

def allRouteIds : List RouteId :=
  [.readme, .hello, .hi, .sleep, .register,
   .todosList, .todosCreate, .todosUpdate, .todosDelete]

/-- warp's `or` alternation: try the routes in order, short-circuiting on
the first full match (`none` = some handler ran); otherwise collect every
route's rejection, as warp's `combine` keeps them all for `find`. -/
def dispatchAux : List RouteId → Request → Option (List Rej)
  | [], _ => some []
  | rid :: rest, req =>
    match runFilts (chainOf rid) req req.path with
    | none => none
    | some r => (dispatchAux rest req).map (fun rs => r :: rs)

def dispatch (req : Request) : Option (List Rej) :=
  dispatchAux allRouteIds req

/-- `models::ErrorMessage`: the uniform error body. -/
structure ErrorMessage where
  code : Nat
  message : String
deriving DecidableEq, Repr

/-- `handlers::rejection` over the collected rejections: `is_not_found`
holds when every branch rejected with the path-mismatch default; then
`find::<BodyDeserializeError>`, then `find::<MethodNotAllowed>` look for a
matching rejection in any branch; anything else is the 500 catch-all. -/
def rejection (rejs : List Rej) : ErrorMessage :=
  if rejs.all (fun r => r == .notFound) then
    ⟨404, "NOT_FOUND"⟩
  else if rejs.any (fun r => r == .bodyDeserialize) then
    ⟨400, "BAD_REQUEST"⟩
  else if rejs.any (fun r => r == .methodNotAllowed) then
    ⟨405, "METHOD_NOT_ALLOWED"⟩
  else
    ⟨500, "UNHANDLED_REJECTION"⟩

/-- The status of the terminal response when no route handled the request;
`none` when some route's handler produced the response instead. -/
def terminalStatus (req : Request) : Option Nat :=
  (dispatch req).map (fun rejs => (rejection rejs).code)

/-- A route's path shape alone: the path filters of its chain. -/
def pathPatternOf (rid : RouteId) : List Filt :=
  (chainOf rid).filter fun f =>
    match f with
    | .pathLit _ => true
    | .pathParamU64 => true
    | .pathParamString => true
    | .pathParamSeconds => true
    | .pathEnd => true
    | _ => false

/-- Whether a full path matches a path pattern: literals and typed captures
segment by segment, nothing left over. -/
def pathMatches : List Filt → List String → Bool
  | [], segs => segs.isEmpty
  | .pathLit s :: fs, t :: rest => (t == s) && pathMatches fs rest
  | .pathParamU64 :: fs, t :: rest => (u64FromStr t).isSome && pathMatches fs rest
  | .pathParamString :: fs, _ :: rest => pathMatches fs rest
  | .pathParamSeconds :: fs, t :: rest =>
    (match Seconds.fromStr t with
     | .ok _ => true
     | .error _ => false) && pathMatches fs rest
  | .pathEnd :: fs, segs => segs.isEmpty && pathMatches fs segs
  | _, _ => false

def routePathMatches (rid : RouteId) (segs : List String) : Bool :=
  pathMatches (pathPatternOf rid) segs

/-- The one method each declared route accepts. -/
def methodOf : RouteId → Method
  | .readme => .GET
  | .hello => .GET
  | .hi => .GET
  | .sleep => .GET
  | .register => .POST
  | .todosList => .GET
  | .todosCreate => .POST
  | .todosUpdate => .PUT
  | .todosDelete => .DELETE

/-- C7 counterexample: a `POST /todos` declaring a 20000-byte body is
rejected by the body filter with `PayloadTooLarge`, but the terminal
status is 405, not 400: sibling routes reject with `MethodNotAllowed`,
which `handlers::rejection` maps before anything handles
`PayloadTooLarge` (alone it would fall to the 500 catch-all). -/
theorem payload_too_large_400_cex :
    runFilts (chainOf RouteId.todosCreate)
        (Request.mk Method.POST ["todos"] none none false (some 20000) true true
          true true) ["todos"]
      = some Rej.payloadTooLarge ∧
    terminalStatus
        (Request.mk Method.POST ["todos"] none none false (some 20000) true true
          true true)
      = some 405 ∧
    terminalStatus
        (Request.mk Method.POST ["todos"] none none false (some 20000) true true
          true true)
      ≠ some 400 := by
  decide

/-- C7 (amended): a `POST /todos` whose declared `Content-Length` exceeds
16 KiB fails its body filter with `PayloadTooLarge`, and the terminal
response carries status 405: the `MethodNotAllowed` rejections of the
sibling routes win in `handlers::rejection`, which handles no
`PayloadTooLarge` at all — a lone `PayloadTooLarge` would map to the 500
catch-all, not to 400. -/
theorem payload_too_large_terminal (req : Request)
    (hm : req.method = Method.POST) (hp : req.path = ["todos"])
    (hcl : ∃ n, req.contentLength = some n ∧ 16 * 1024 < n) :
    runFilts (chainOf RouteId.todosCreate) req req.path = some Rej.payloadTooLarge ∧
    terminalStatus req = some 405 ∧
    rejection [Rej.payloadTooLarge] = ⟨500, "UNHANDLED_REJECTION"⟩ := by
  obtain ⟨n, hn, hgt⟩ := hcl
  obtain ⟨m, p, auth, host, ua, cl, tb, eb, q, ro⟩ := req
  simp only at hm hp hn
  subst hm
  subst hp
  subst hn
  have hle : ¬ (n ≤ 16 * 1024) := by omega
  refine ⟨?_, ?_, by decide⟩
  · simp [runFilts, chainOf, hle]
  · simp [terminalStatus, dispatch, dispatchAux, allRouteIds, chainOf, runFilts,
      rejection, hle]

theorem payload_too_large_terminal_app :
    runFilts (chainOf RouteId.todosCreate)
        (Request.mk Method.POST ["todos"] (some "x") (some true) true
          (some 16385) false false false false)
        (Request.mk Method.POST ["todos"] (some "x") (some true) true
          (some 16385) false false false false).path
      = some Rej.payloadTooLarge ∧
    terminalStatus
        (Request.mk Method.POST ["todos"] (some "x") (some true) true
          (some 16385) false false false false)
      = some 405 ∧
    rejection [Rej.payloadTooLarge] = ⟨500, "UNHANDLED_REJECTION"⟩ :=
  payload_too_large_terminal
    (Request.mk Method.POST ["todos"] (some "x") (some true) true (some 16385)
      false false false false)
    rfl rfl ⟨16385, rfl, by omega⟩

theorem route405_root (req : Request) (hp : req.path = [])
    (hm : req.method ≠ Method.GET) : terminalStatus req = some 405 := by
  obtain ⟨m, p, auth, host, ua, cl, tb, eb, q, ro⟩ := req
  simp only at hp hm
  subst hp
  cases m <;> simp_all [terminalStatus, dispatch, dispatchAux, allRouteIds,
    chainOf, runFilts, rejection]

theorem route405_hi (req : Request) (hp : req.path = ["hi"])
    (hm : req.method ≠ Method.GET) : terminalStatus req = some 405 := by
  obtain ⟨m, p, auth, host, ua, cl, tb, eb, q, ro⟩ := req
  simp only at hp hm
  subst hp
  cases m <;> simp_all [terminalStatus, dispatch, dispatchAux, allRouteIds,
    chainOf, runFilts, rejection]

theorem route405_register (req : Request) (hp : req.path = ["register"])
    (hm : req.method ≠ Method.POST) : terminalStatus req = some 405 := by
  obtain ⟨m, p, auth, host, ua, cl, tb, eb, q, ro⟩ := req
  simp only at hp hm
  subst hp
  cases m <;> simp_all [terminalStatus, dispatch, dispatchAux, allRouteIds,
    chainOf, runFilts, rejection]

theorem route405_todos (req : Request) (hp : req.path = ["todos"])
    (hm1 : req.method ≠ Method.GET) (hm2 : req.method ≠ Method.POST) :
    terminalStatus req = some 405 := by
  obtain ⟨m, p, auth, host, ua, cl, tb, eb, q, ro⟩ := req
  simp only at hp hm1 hm2
  subst hp
  cases m <;> simp_all [terminalStatus, dispatch, dispatchAux, allRouteIds,
    chainOf, runFilts, rejection]

theorem route405_hello (req : Request) (b : String) (hp : req.path = ["hello", b])
    (hm : req.method ≠ Method.GET) : terminalStatus req = some 405 := by
  obtain ⟨m, p, auth, host, ua, cl, tb, eb, q, ro⟩ := req
  simp only at hp hm
  subst hp
  cases m <;> simp_all [terminalStatus, dispatch, dispatchAux, allRouteIds,
    chainOf, runFilts, rejection]

theorem route405_sleep (req : Request) (b : String) (hp : req.path = ["sleep", b])
    (hm : req.method ≠ Method.GET) : terminalStatus req = some 405 := by
  obtain ⟨m, p, auth, host, ua, cl, tb, eb, q, ro⟩ := req
  simp only at hp hm
  subst hp
  cases m <;> simp_all [terminalStatus, dispatch, dispatchAux, allRouteIds,
    chainOf, runFilts, rejection]

theorem route405_todos_id (req : Request) (b : String)
    (hp : req.path = ["todos", b]) (hb : (u64FromStr b).isSome = true)
    (hm1 : req.method ≠ Method.PUT) (hm2 : req.method ≠ Method.DELETE) :
    terminalStatus req = some 405 := by
  obtain ⟨m, p, auth, host, ua, cl, tb, eb, q, ro⟩ := req
  simp only at hp hm1 hm2
  subst hp
  cases m with
  | PUT => exact absurd rfl hm1
  | DELETE => exact absurd rfl hm2
  | GET =>
    rcases auth with _ | w
    · simp [terminalStatus, dispatch, dispatchAux, allRouteIds, chainOf,
        runFilts, rejection, hb]
    · rcases eq_or_ne w "Bearer admin" with hw | hw
      · subst hw
        simp [terminalStatus, dispatch, dispatchAux, allRouteIds, chainOf,
          runFilts, rejection, hb]
      · simp [terminalStatus, dispatch, dispatchAux, allRouteIds, chainOf,
          runFilts, rejection, hb, hw]
  | POST =>
    rcases auth with _ | w
    · simp [terminalStatus, dispatch, dispatchAux, allRouteIds, chainOf,
        runFilts, rejection, hb]
    · rcases eq_or_ne w "Bearer admin" with hw | hw
      · subst hw
        simp [terminalStatus, dispatch, dispatchAux, allRouteIds, chainOf,
          runFilts, rejection, hb]
      · simp [terminalStatus, dispatch, dispatchAux, allRouteIds, chainOf,
          runFilts, rejection, hb, hw]
  | other s =>
    rcases auth with _ | w
    · simp [terminalStatus, dispatch, dispatchAux, allRouteIds, chainOf,
        runFilts, rejection, hb]
    · rcases eq_or_ne w "Bearer admin" with hw | hw
      · subst hw
        simp [terminalStatus, dispatch, dispatchAux, allRouteIds, chainOf,
          runFilts, rejection, hb]
      · simp [terminalStatus, dispatch, dispatchAux, allRouteIds, chainOf,
          runFilts, rejection, hb, hw]

theorem not404_root (req : Request) (hp : req.path = [])
    (hro : req.readmeOk = true) : terminalStatus req ≠ some 404 := by
  obtain ⟨m, p, auth, host, ua, cl, tb, eb, q, ro⟩ := req
  simp only at hp hro
  subst hp
  subst hro
  cases m <;> simp [terminalStatus, dispatch, dispatchAux, allRouteIds,
    chainOf, runFilts, rejection]

theorem not404_hi (req : Request) (hp : req.path = ["hi"]) :
    terminalStatus req ≠ some 404 := by
  obtain ⟨m, p, auth, host, ua, cl, tb, eb, q, ro⟩ := req
  simp only at hp
  subst hp
  cases m <;> simp [terminalStatus, dispatch, dispatchAux, allRouteIds,
    chainOf, runFilts, rejection]

theorem not404_register (req : Request) (hp : req.path = ["register"]) :
    terminalStatus req ≠ some 404 := by
  obtain ⟨m, p, auth, host, ua, cl, tb, eb, q, ro⟩ := req
  simp only at hp
  subst hp
  cases m with
  | POST =>
    rcases cl with _ | n
    · simp [terminalStatus, dispatch, dispatchAux, allRouteIds, chainOf,
        runFilts, rejection]
    · by_cases hn : n ≤ 16 * 1024
      · cases eb <;> simp [terminalStatus, dispatch, dispatchAux, allRouteIds,
          chainOf, runFilts, rejection, hn]
      · simp [terminalStatus, dispatch, dispatchAux, allRouteIds, chainOf,
          runFilts, rejection, hn]
  | GET =>
    simp [terminalStatus, dispatch, dispatchAux, allRouteIds, chainOf,
      runFilts, rejection]
  | PUT =>
    simp [terminalStatus, dispatch, dispatchAux, allRouteIds, chainOf,
      runFilts, rejection]
  | DELETE =>
    simp [terminalStatus, dispatch, dispatchAux, allRouteIds, chainOf,
      runFilts, rejection]
  | other s =>
    simp [terminalStatus, dispatch, dispatchAux, allRouteIds, chainOf,
      runFilts, rejection]

theorem not404_todos (req : Request) (hp : req.path = ["todos"]) :
    terminalStatus req ≠ some 404 := by
  obtain ⟨m, p, auth, host, ua, cl, tb, eb, q, ro⟩ := req
  simp only at hp
  subst hp
  cases m with
  | GET =>
    cases q <;> simp [terminalStatus, dispatch, dispatchAux, allRouteIds,
      chainOf, runFilts, rejection]
  | POST =>
    rcases cl with _ | n
    · simp [terminalStatus, dispatch, dispatchAux, allRouteIds, chainOf,
        runFilts, rejection]
    · by_cases hn : n ≤ 16 * 1024
      · cases tb <;> simp [terminalStatus, dispatch, dispatchAux, allRouteIds,
          chainOf, runFilts, rejection, hn]
      · simp [terminalStatus, dispatch, dispatchAux, allRouteIds, chainOf,
          runFilts, rejection, hn]
  | PUT =>
    simp [terminalStatus, dispatch, dispatchAux, allRouteIds, chainOf,
      runFilts, rejection]
  | DELETE =>
    simp [terminalStatus, dispatch, dispatchAux, allRouteIds, chainOf,
      runFilts, rejection]
  | other s =>
    simp [terminalStatus, dispatch, dispatchAux, allRouteIds, chainOf,
      runFilts, rejection]

theorem not404_hello (req : Request) (b : String)
    (hp : req.path = ["hello", b]) : terminalStatus req ≠ some 404 := by
  obtain ⟨m, p, auth, host, ua, cl, tb, eb, q, ro⟩ := req
  simp only at hp
  subst hp
  cases m with
  | GET =>
    rcases host with _ | hb2
    · simp [terminalStatus, dispatch, dispatchAux, allRouteIds, chainOf,
        runFilts, rejection]
    · cases hb2 <;> cases ua <;> simp [terminalStatus, dispatch, dispatchAux,
        allRouteIds, chainOf, runFilts, rejection]
  | POST =>
    simp [terminalStatus, dispatch, dispatchAux, allRouteIds, chainOf,
      runFilts, rejection]
  | PUT =>
    simp [terminalStatus, dispatch, dispatchAux, allRouteIds, chainOf,
      runFilts, rejection]
  | DELETE =>
    simp [terminalStatus, dispatch, dispatchAux, allRouteIds, chainOf,
      runFilts, rejection]
  | other s =>
    simp [terminalStatus, dispatch, dispatchAux, allRouteIds, chainOf,
      runFilts, rejection]

theorem not404_sleep (req : Request) (b : String)
    (hp : req.path = ["sleep", b])
    (hsb : ∃ sec, Seconds.fromStr b = Except.ok sec) :
    terminalStatus req ≠ some 404 := by
  obtain ⟨m, p, auth, host, ua, cl, tb, eb, q, ro⟩ := req
  simp only at hp
  subst hp
  obtain ⟨sec, hsec⟩ := hsb
  cases m <;> simp [terminalStatus, dispatch, dispatchAux, allRouteIds,
    chainOf, runFilts, rejection, hsec]

theorem not404_todos_id (req : Request) (b : String)
    (hp : req.path = ["todos", b]) (hb : (u64FromStr b).isSome = true) :
    terminalStatus req ≠ some 404 := by
  obtain ⟨m, p, auth, host, ua, cl, tb, eb, q, ro⟩ := req
  simp only at hp
  subst hp
  cases m with
  | PUT =>
    rcases cl with _ | n
    · rcases auth with _ | w
      · simp [terminalStatus, dispatch, dispatchAux, allRouteIds, chainOf,
          runFilts, rejection, hb]
      · rcases eq_or_ne w "Bearer admin" with hw | hw
        · subst hw
          simp [terminalStatus, dispatch, dispatchAux, allRouteIds, chainOf,
            runFilts, rejection, hb]
        · simp [terminalStatus, dispatch, dispatchAux, allRouteIds, chainOf,
            runFilts, rejection, hb, hw]
    · by_cases hn : n ≤ 16 * 1024
      · cases tb with
        | true =>
          simp [terminalStatus, dispatch, dispatchAux, allRouteIds, chainOf,
            runFilts, rejection, hb, hn]
        | false =>
          rcases auth with _ | w
          · simp [terminalStatus, dispatch, dispatchAux, allRouteIds, chainOf,
              runFilts, rejection, hb, hn]
          · rcases eq_or_ne w "Bearer admin" with hw | hw
            · subst hw
              simp [terminalStatus, dispatch, dispatchAux, allRouteIds, chainOf,
                runFilts, rejection, hb, hn]
            · simp [terminalStatus, dispatch, dispatchAux, allRouteIds, chainOf,
                runFilts, rejection, hb, hn, hw]
      · rcases auth with _ | w
        · simp [terminalStatus, dispatch, dispatchAux, allRouteIds, chainOf,
            runFilts, rejection, hb, hn]
        · rcases eq_or_ne w "Bearer admin" with hw | hw
          · subst hw
            simp [terminalStatus, dispatch, dispatchAux, allRouteIds, chainOf,
              runFilts, rejection, hb, hn]
          · simp [terminalStatus, dispatch, dispatchAux, allRouteIds, chainOf,
              runFilts, rejection, hb, hn, hw]
  | DELETE =>
    rcases auth with _ | w
    · simp [terminalStatus, dispatch, dispatchAux, allRouteIds, chainOf,
        runFilts, rejection, hb]
    · rcases eq_or_ne w "Bearer admin" with hw | hw
      · subst hw
        simp [terminalStatus, dispatch, dispatchAux, allRouteIds, chainOf,
          runFilts, rejection, hb]
      · simp [terminalStatus, dispatch, dispatchAux, allRouteIds, chainOf,
          runFilts, rejection, hb, hw]
  | GET =>
    rcases auth with _ | w
    · simp [terminalStatus, dispatch, dispatchAux, allRouteIds, chainOf,
        runFilts, rejection, hb]
    · rcases eq_or_ne w "Bearer admin" with hw | hw
      · subst hw
        simp [terminalStatus, dispatch, dispatchAux, allRouteIds, chainOf,
          runFilts, rejection, hb]
      · simp [terminalStatus, dispatch, dispatchAux, allRouteIds, chainOf,
          runFilts, rejection, hb, hw]
  | POST =>
    rcases auth with _ | w
    · simp [terminalStatus, dispatch, dispatchAux, allRouteIds, chainOf,
        runFilts, rejection, hb]
    · rcases eq_or_ne w "Bearer admin" with hw | hw
      · subst hw
        simp [terminalStatus, dispatch, dispatchAux, allRouteIds, chainOf,
          runFilts, rejection, hb]
      · simp [terminalStatus, dispatch, dispatchAux, allRouteIds, chainOf,
          runFilts, rejection, hb, hw]
  | other s =>
    rcases auth with _ | w
    · simp [terminalStatus, dispatch, dispatchAux, allRouteIds, chainOf,
        runFilts, rejection, hb]
    · rcases eq_or_ne w "Bearer admin" with hw | hw
      · subst hw
        simp [terminalStatus, dispatch, dispatchAux, allRouteIds, chainOf,
          runFilts, rejection, hb]
      · simp [terminalStatus, dispatch, dispatchAux, allRouteIds, chainOf,
          runFilts, rejection, hb, hw]

/-- C8: when the request's path fully matches some declared route's path
pattern but no route with a matching path pattern accepts the request's
method, the terminal response is 405 (MethodNotAllowed), not 404; and the
rejection-path 404 (RouteNotFound) only ever arises when the path matches
no route's pattern at all (granting that `./README.md` is servable, since
the excluded static-file route rejects with the same not-found kind). -/
theorem method_not_allowed_vs_route_not_found (req : Request) :
    ((∃ rid ∈ allRouteIds, routePathMatches rid req.path = true) →
     (∀ rid ∈ allRouteIds, routePathMatches rid req.path = true →
        methodOf rid ≠ req.method) →
     terminalStatus req = some 405) ∧
    (req.readmeOk = true → terminalStatus req = some 404 →
     ∀ rid ∈ allRouteIds, routePathMatches rid req.path = false) := by
  constructor
  · rintro ⟨rid, hmem, hmatch⟩ hmeth
    rcases hpath : req.path with _ | ⟨a, _ | ⟨b, _ | ⟨c, rest⟩⟩⟩
    · rw [hpath] at hmatch
      cases rid <;>
        simp [routePathMatches, pathPatternOf, chainOf, pathMatches] at hmatch
      exact route405_root req hpath
        (Ne.symm (hmeth .readme (by decide) (by rw [hpath]; decide)))
    · rw [hpath] at hmatch
      cases rid <;>
        simp [routePathMatches, pathPatternOf, chainOf, pathMatches] at hmatch
      · subst hmatch
        exact route405_hi req hpath
          (Ne.symm (hmeth .hi (by decide) (by rw [hpath]; decide)))
      · subst hmatch
        exact route405_register req hpath
          (Ne.symm (hmeth .register (by decide) (by rw [hpath]; decide)))
      · subst hmatch
        exact route405_todos req hpath
          (Ne.symm (hmeth .todosList (by decide) (by rw [hpath]; decide)))
          (Ne.symm (hmeth .todosCreate (by decide) (by rw [hpath]; decide)))
      · subst hmatch
        exact route405_todos req hpath
          (Ne.symm (hmeth .todosList (by decide) (by rw [hpath]; decide)))
          (Ne.symm (hmeth .todosCreate (by decide) (by rw [hpath]; decide)))
    · rw [hpath] at hmatch
      cases rid <;>
        simp [routePathMatches, pathPatternOf, chainOf, pathMatches] at hmatch
      · subst hmatch
        exact route405_hello req b hpath
          (Ne.symm (hmeth .hello (by decide) (by
            rw [hpath]
            simp [routePathMatches, pathPatternOf, chainOf, pathMatches])))
      · obtain ⟨ha, hsb⟩ := hmatch
        subst ha
        exact route405_sleep req b hpath
          (Ne.symm (hmeth .sleep (by decide) (by
            rw [hpath]
            simpa [routePathMatches, pathPatternOf, chainOf, pathMatches]
              using hsb)))
      · obtain ⟨ha, hb⟩ := hmatch
        subst ha
        exact route405_todos_id req b hpath hb
          (Ne.symm (hmeth .todosUpdate (by decide) (by
            rw [hpath]
            simp [routePathMatches, pathPatternOf, chainOf, pathMatches, hb])))
          (Ne.symm (hmeth .todosDelete (by decide) (by
            rw [hpath]
            simp [routePathMatches, pathPatternOf, chainOf, pathMatches, hb])))
      · obtain ⟨ha, hb⟩ := hmatch
        subst ha
        exact route405_todos_id req b hpath hb
          (Ne.symm (hmeth .todosUpdate (by decide) (by
            rw [hpath]
            simp [routePathMatches, pathPatternOf, chainOf, pathMatches, hb])))
          (Ne.symm (hmeth .todosDelete (by decide) (by
            rw [hpath]
            simp [routePathMatches, pathPatternOf, chainOf, pathMatches, hb])))
    · rw [hpath] at hmatch
      cases rid <;>
        simp [routePathMatches, pathPatternOf, chainOf, pathMatches] at hmatch
  · intro hro h404 rid hmem
    cases hx : routePathMatches rid req.path
    · rfl
    · exfalso
      rcases hpath : req.path with _ | ⟨a, _ | ⟨b, _ | ⟨c, rest⟩⟩⟩
      · rw [hpath] at hx
        cases rid <;>
          simp [routePathMatches, pathPatternOf, chainOf, pathMatches] at hx
        exact not404_root req hpath hro h404
      · rw [hpath] at hx
        cases rid <;>
          simp [routePathMatches, pathPatternOf, chainOf, pathMatches] at hx
        · subst hx
          exact not404_hi req hpath h404
        · subst hx
          exact not404_register req hpath h404
        · subst hx
          exact not404_todos req hpath h404
        · subst hx
          exact not404_todos req hpath h404
      · rw [hpath] at hx
        cases rid <;>
          simp [routePathMatches, pathPatternOf, chainOf, pathMatches] at hx
        · subst hx
          exact not404_hello req b hpath h404
        · obtain ⟨ha, hsb⟩ := hx
          subst ha
          have hex : ∃ sec, Seconds.fromStr b = Except.ok sec := by
            cases hfb : Seconds.fromStr b with
            | ok sec => exact ⟨sec, rfl⟩
            | error e =>
              rw [hfb] at hsb
              simp at hsb
          exact not404_sleep req b hpath hex h404
        · obtain ⟨ha, hb⟩ := hx
          subst ha
          exact not404_todos_id req b hpath hb h404
        · obtain ⟨ha, hb⟩ := hx
          subst ha
          exact not404_todos_id req b hpath hb h404
      · rw [hpath] at hx
        cases rid <;>
          simp [routePathMatches, pathPatternOf, chainOf, pathMatches] at hx

theorem method_not_allowed_vs_route_not_found_app :
    terminalStatus
        (Request.mk (Method.other "PATCH") ["todos"] none none false none true
          true true true)
      = some 405 ∧
    routePathMatches RouteId.todosList ["nope"] = false :=
  ⟨(method_not_allowed_vs_route_not_found
      (Request.mk (Method.other "PATCH") ["todos"] none none false none true
        true true true)).1
    ⟨RouteId.todosList, by decide, by decide⟩ (by decide),
   (method_not_allowed_vs_route_not_found
      (Request.mk Method.GET ["nope"] none none false none true true true
        true)).2 rfl (by decide) RouteId.todosList (by decide)⟩
